import Mathlib

/-
Verification of the templating-controller reconcile core
(pkg/controllers/templating_reconciler.go).

The embedding models the reconcile loop and the Apply upsert protocol as
pure functions over an abstract cluster-store client. The client is an
oracle: a structure of response functions over an explicit state type, so
theorems quantify over every possible store behaviour, and a concrete
list-backed store instantiates it for convergence results. Every call the
Go code issues against the store is recorded in a trace of StoreCall
values, so claims about which calls a cycle performs become statements
about that trace.
-/

namespace Templating

/-- Errors as produced by the pkg errors library: a base message or a
wrapped error carrying a label, rendered as label-colon-cause. -/
inductive Err where
  | base (msg : String)
  | wrap (label : String) (e : Err)
deriving DecidableEq, Repr

/-- Rendering of an error to its message string, following the pkg errors
convention where Wrap prints the label, a colon and the cause. -/
def Err.render : Err → String
  | .base m => m
  | .wrap l e => l ++ ": " ++ e.render

/-- Whether an error is a wrapped error (carries a distinguishing label). -/
def Err.isWrapped : Err → Bool
  | .base _ => false
  | .wrap _ _ => true

/-- The pkg errors Wrap function on an optional error: wrapping nil yields
nil, wrapping an error attaches the label. -/
def wrapOpt (label : String) : Option Err → Option Err
  | none => none
  | some e => some (.wrap label e)

/- Error label constants of templating_reconciler.go. -/

def errUpdateResourceStatus : String := "could not update status of the parent resource"

def errGetResource : String := "could not get the parent resource"

def errTemplatingOperation : String := "templating operation failed"

def errChildResourcePatchers : String := "child resource patchers failed"

def errApply : String := "apply failed"

def errCreateChildResource : String := "could not create child resource"

def errGetChildResource : String := "could not get child resource"

/-- Modelled from the spec: the condition kinds of section 3 of the data
model, a Ready/Synced-style success kind and an error kind. The crossplane
condition constructors used by the code are not part of this repository
and are reduced to this two-kind shape. -/
inductive CondKind where
  | success
  | error
deriving DecidableEq, Repr

/-- Modelled from the spec: a status condition, reduced to its kind and
message. Reason, status and lastTransitionTime carry no content that the
claims mention and are omitted. -/
structure Condition where
  kind : CondKind
  message : String
deriving DecidableEq, Repr

/-- Modelled from the spec: the find-or-append-by-type condition mutation
of section 9, replacing the first condition of the same kind and appending
when none exists. -/
def setCondition : List Condition → Condition → List Condition
  | [], c => [c]
  | x :: xs, c => if x.kind == c.kind then c :: xs else x :: setCondition xs c

/-- Modelled from the spec: the crossplane ReconcileError constructor,
producing an error condition whose message renders the given error. -/
def ReconcileError (e : Err) : Condition :=
  ⟨.error, e.render⟩

/-- Modelled from the spec: the crossplane ReconcileSuccess constructor,
producing a success condition. -/
def ReconcileSuccess : Condition :=
  ⟨.success, "reconcile succeeded"⟩

/-- The parent resource as the claims need it: the deletion marker that
meta.WasDeleted checks and the mutable list of status conditions. -/
structure ParentResource where
  deleted : Bool
  conditions : List Condition
deriving DecidableEq, Repr

/-- Modelled from the spec: resource.SetConditions of the resource
package, which records a condition on the parent status using the
find-or-append-by-type mutation. The Go version also returns a logged
conversion error with no semantic effect on the flow, which the model
drops. -/
def SetConditions (cr : ParentResource) (c : Condition) : ParentResource :=
  { cr with conditions := setCondition cr.conditions c }

/-- Identity of a stored object: name, namespace and kind. -/
structure Identity where
  name : String
  ns : String
  kind : String
deriving DecidableEq, Repr

/-- A child resource: its identity fields and its remaining body, a JSON
object modelled as a list of key-value fields. -/
structure ChildResource where
  name : String
  ns : String
  kind : String
  body : List (String × String)
deriving DecidableEq, Repr

/-- The identity a child resource is stored under. -/
def ChildResource.identity (o : ChildResource) : Identity :=
  ⟨o.name, o.ns, o.kind⟩

/-- Outcome of a store get for a child resource. -/
inductive GetResult where
  | found (o : ChildResource)
  | notFound
  | err (e : Err)
deriving DecidableEq, Repr

/-- Outcome of a store get for the parent resource. -/
inductive ParentGetResult where
  | found (cr : ParentResource)
  | notFound
  | err (e : Err)
deriving DecidableEq, Repr

/-- One call issued against the cluster store. The delete constructor is
part of the call vocabulary of the store client even though the core never
issues it, so that never-deletes is a statement and not a triviality of
the type. -/
inductive StoreCall where
  | getParent (i : Identity)
  | getChild (i : Identity)
  | create (o : ChildResource)
  | patch (i : Identity) (patchJSON : List (String × String))
  | statusUpdate (conds : List Condition)
  | delete (i : Identity)
deriving DecidableEq, Repr

/-- The cluster-store client capability, as an oracle over a state type:
each operation consumes a state and returns the next state and its
outcome. -/
structure Client (σ : Type) where
  getParent : σ → Identity → σ × ParentGetResult
  getChild : σ → Identity → σ × GetResult
  create : σ → ChildResource → σ × Option Err
  patch : σ → Identity → List (String × String) → σ × Option Err
  statusUpdate : σ → ParentResource → σ × Option Err

/-- The canonical json.Marshal on the model of a child resource: always
succeeds and serializes the body fields. Apply is parametric in the
marshalling function because json.Marshal is fallible in Go. -/
def jsonMarshal (o : ChildResource) : Except Err (List (String × String)) :=
  .ok o.body

/-- Apply of templating_reconciler.go: fetch the existing object by the
identity of the desired one; on not-found create the desired object with
the create error wrapped; on any other get failure wrap it as a get error;
on success marshal the desired object and merge-patch the fetched object,
returning the patch outcome as is. Returns the next store state, the trace
of store calls issued, and the error outcome. -/
def Apply {σ : Type} (kube : Client σ) (marshal : ChildResource → Except Err (List (String × String)))
    (s : σ) (o : ChildResource) : σ × List StoreCall × Option Err :=
  match kube.getChild s o.identity with
  | (s1, .notFound) =>
      let c := kube.create s1 o
      (c.1, [.getChild o.identity, .create o], wrapOpt errCreateChildResource c.2)
  | (s1, .err e) =>
      (s1, [.getChild o.identity], some (.wrap errGetChildResource e))
  | (s1, .found existing) =>
      match marshal o with
      | .error e => (s1, [.getChild o.identity], some e)
      | .ok patchJSON =>
          let p := kube.patch s1 existing.identity patchJSON
          (p.1, [.getChild o.identity, .patch existing.identity patchJSON], p.2)

/-- The apply loop of Reconcile: applies the children in order and stops
at the first failure, returning the failing child and its error. -/
def applyChildren {σ : Type} (kube : Client σ) (marshal : ChildResource → Except Err (List (String × String)))
    (s : σ) : List ChildResource → σ × List StoreCall × Option (ChildResource × Err)
  | [] => (s, [], none)
  | o :: rest =>
      match Apply kube marshal s o with
      | (s1, t1, some e) => (s1, t1, some (o, e))
      | (s1, t1, none) =>
          let r := applyChildren kube marshal s1 rest
          (r.1, t1 ++ r.2.1, r.2.2)

/-- The reconciler configuration: the store client and the capabilities
and waits wired at construction time. -/
structure TemplatingReconciler (σ : Type) where
  kube : Client σ
  shortWait : Nat
  longWait : Nat
  templatingEngine : ParentResource → Except Err (List ChildResource)
  childResourcePatcher : ParentResource → List ChildResource → Except Err (List ChildResource)

/-- The requeue directive of a cycle: the Requeue flag and the
RequeueAfter duration of the returned controller result. -/
structure ReconcileResult where
  requeue : Bool
  requeueAfter : Nat
deriving DecidableEq, Repr

/-- Everything one reconcile cycle produces: the next store state, the
trace of store calls, the requeue directive and the returned error. -/
structure CycleOutcome (σ : Type) where
  state : σ
  trace : List StoreCall
  result : ReconcileResult
  error : Option Err

/-- The condition-message label Reconcile formats for a failing child:
apply failed, the child name, namespace and kind. -/
def applyErrLabel (o : ChildResource) : String :=
  errApply ++ ": " ++ o.name ++ "/" ++ o.ns ++ " of type " ++ o.kind

/-- Reconcile of templating_reconciler.go: load the parent (not-found
ends the cycle silently, any other get error is wrapped and returned),
stop silently when the parent was deleted, run the templating engine and
the patcher chain with an error condition, a status write and a
short-wait requeue on failure, apply the children fail-fast with the same
treatment naming the failing child, and on success record a success
condition, write status and requeue after the long wait. On every branch
that writes status the returned error is the wrapped status-write
outcome. -/
def Reconcile {σ : Type} (r : TemplatingReconciler σ) (marshal : ChildResource → Except Err (List (String × String)))
    (s : σ) (req : Identity) : CycleOutcome σ :=
  match r.kube.getParent s req with
  | (s1, .err e) =>
      ⟨s1, [.getParent req], ⟨false, 0⟩, some (.wrap errGetResource e)⟩
  | (s1, .notFound) =>
      ⟨s1, [.getParent req], ⟨false, 0⟩, wrapOpt errGetResource none⟩
  | (s1, .found cr) =>
      if cr.deleted then
        ⟨s1, [.getParent req], ⟨false, 0⟩, none⟩
      else
        match r.templatingEngine cr with
        | .error e =>
            let cr1 := SetConditions cr (ReconcileError (.wrap errTemplatingOperation e))
            let u := r.kube.statusUpdate s1 cr1
            ⟨u.1, [.getParent req, .statusUpdate cr1.conditions], ⟨false, r.shortWait⟩,
              wrapOpt errUpdateResourceStatus u.2⟩
        | .ok childResources0 =>
            match r.childResourcePatcher cr childResources0 with
            | .error e =>
                let cr1 := SetConditions cr (ReconcileError (.wrap errChildResourcePatchers e))
                let u := r.kube.statusUpdate s1 cr1
                ⟨u.1, [.getParent req, .statusUpdate cr1.conditions], ⟨false, r.shortWait⟩,
                  wrapOpt errUpdateResourceStatus u.2⟩
            | .ok childResources =>
                match applyChildren r.kube marshal s1 childResources with
                | (s2, t, some fe) =>
                    let cr1 := SetConditions cr (ReconcileError (.wrap (applyErrLabel fe.1) fe.2))
                    let u := r.kube.statusUpdate s2 cr1
                    ⟨u.1, .getParent req :: (t ++ [.statusUpdate cr1.conditions]), ⟨false, r.shortWait⟩,
                      wrapOpt errUpdateResourceStatus u.2⟩
                | (s2, t, none) =>
                    let cr1 := SetConditions cr ReconcileSuccess
                    let u := r.kube.statusUpdate s2 cr1
                    ⟨u.1, .getParent req :: (t ++ [.statusUpdate cr1.conditions]), ⟨false, r.longWait⟩,
                      wrapOpt errUpdateResourceStatus u.2⟩

/- Trace observables. -/

/-- Whether a store call is a create or a patch. -/
def StoreCall.isCreateOrPatch : StoreCall → Bool
  | .create _ => true
  | .patch _ _ => true
  | _ => false

/-- Whether a store call is a status update. -/
def StoreCall.isStatusUpdate : StoreCall → Bool
  | .statusUpdate _ => true
  | _ => false

/-- Whether a store call is a delete. -/
def StoreCall.isDelete : StoreCall → Bool
  | .delete _ => true
  | _ => false

/-- Whether a store call is a write (anything other than a get). -/
def StoreCall.isWrite : StoreCall → Bool
  | .getParent _ => false
  | .getChild _ => false
  | _ => true

/-- Number of create or patch calls in a trace. -/
def countCreatePatch (t : List StoreCall) : Nat :=
  (t.filter StoreCall.isCreateOrPatch).length

/-- Number of status-update calls in a trace. -/
def countStatusUpdates (t : List StoreCall) : Nat :=
  (t.filter StoreCall.isStatusUpdate).length

/-- Number of delete calls in a trace. -/
def countDeletes (t : List StoreCall) : Nat :=
  (t.filter StoreCall.isDelete).length

/-- Number of conditions of the error kind in a condition list. -/
def countErrorConds (l : List Condition) : Nat :=
  (l.filter (fun c => c.kind == CondKind.error)).length

/- A concrete list-backed store, instantiating the client oracle with the
real get, create and merge-patch semantics of a declarative state store. -/

/-- The concrete store: the list of stored child resources. -/
abbrev Store := List ChildResource

/-- Lookup by identity in the concrete store. -/
def storeFind (s : Store) (i : Identity) : Option ChildResource :=
  s.find? (fun o => o.identity == i)

/-- JSON merge-patch on object bodies: fields present in the patch
overwrite the corresponding fields of the base, fields absent from the
patch are left untouched, and new patch fields are appended. -/
def mergeFields (base patchJSON : List (String × String)) : List (String × String) :=
  base.map (fun kv =>
    match patchJSON.find? (fun p => p.1 == kv.1) with
    | some p => p
    | none => kv)
  ++ patchJSON.filter (fun p => base.all (fun kv => !(kv.1 == p.1)))

/-- Concrete store get for a child identity. -/
def storeGetChild (s : Store) (i : Identity) : Store × GetResult :=
  match storeFind s i with
  | some o => (s, .found o)
  | none => (s, .notFound)

/-- Concrete store create: fails when an object with the same identity
exists, appends the object otherwise. -/
def storeCreate (s : Store) (o : ChildResource) : Store × Option Err :=
  match storeFind s o.identity with
  | some _ => (s, some (.base "already exists"))
  | none => (s ++ [o], none)

/-- Concrete store merge-patch: fails when the target does not exist,
merges the patch document into the body of the target otherwise. -/
def storePatch (s : Store) (i : Identity) (patchJSON : List (String × String)) : Store × Option Err :=
  match storeFind s i with
  | none => (s, some (.base "not found"))
  | some _ =>
      (s.map (fun o => if o.identity == i then { o with body := mergeFields o.body patchJSON } else o),
        none)

/-- The concrete store as a client: child operations are backed by the
list store, the parent is not stored (parent gets report not-found) and
status updates succeed without touching the child store. -/
def storeClient : Client Store where
  getParent := fun s _ => (s, .notFound)
  getChild := storeGetChild
  create := storeCreate
  patch := storePatch
  statusUpdate := fun s _ => (s, none)

/-- A stateless client built from fixed responses, used to exercise the
core on chosen store behaviours. -/
def constClient (pg : ParentGetResult) (g : GetResult) (ce pe ue : Option Err) : Client Unit where
  getParent := fun _ _ => ((), pg)
  getChild := fun _ _ => ((), g)
  create := fun _ _ => ((), ce)
  patch := fun _ _ _ => ((), pe)
  statusUpdate := fun _ _ => ((), ue)

/-- A sample child resource used by concrete instantiations. -/
def child0 : ChildResource :=
  ⟨"cfg", "default", "ConfigMap", [("data", "v1")]⟩

/-- A sample request identity used by concrete instantiations. -/
def req0 : Identity :=
  ⟨"parent", "default", "Sample"⟩

/-- A sample live parent resource used by concrete instantiations. -/
def parent0 : ParentResource :=
  ⟨false, []⟩

/- Helper lemmas about traces, the apply loop and condition mutation. -/

theorem countStatusUpdates_append (a b : List StoreCall) :
    countStatusUpdates (a ++ b) = countStatusUpdates a + countStatusUpdates b := by
  simp [countStatusUpdates, List.filter_append]

theorem countDeletes_append (a b : List StoreCall) :
    countDeletes (a ++ b) = countDeletes a + countDeletes b := by
  simp [countDeletes, List.filter_append]

theorem countCreatePatch_append (a b : List StoreCall) :
    countCreatePatch (a ++ b) = countCreatePatch a + countCreatePatch b := by
  simp [countCreatePatch, List.filter_append]

/-- Every Apply trace is one of three shapes: a get followed by a create,
a lone get, or a get followed by a patch. -/
theorem apply_trace_shape {σ : Type} (c : Client σ)
    (m : ChildResource → Except Err (List (String × String))) (s : σ) (o : ChildResource) :
    (Apply c m s o).2.1 = [.getChild o.identity, .create o] ∨
    (Apply c m s o).2.1 = [.getChild o.identity] ∨
    (∃ i pj, (Apply c m s o).2.1 = [.getChild o.identity, .patch i pj]) := by
  unfold Apply
  cases hg : c.getChild s o.identity with
  | mk s1 g =>
    cases g with
    | found ex =>
      cases hm : m o with
      | error e => right; left; rfl
      | ok pj => right; right; exact ⟨ex.identity, pj, rfl⟩
    | notFound => left; rfl
    | err e => right; left; rfl

/-- An Apply trace contains no status update. -/
theorem countSU_apply {σ : Type} (c : Client σ)
    (m : ChildResource → Except Err (List (String × String))) (s : σ) (o : ChildResource) :
    countStatusUpdates (Apply c m s o).2.1 = 0 := by
  rcases apply_trace_shape c m s o with h | h | ⟨i, pj, h⟩ <;> rw [h] <;> rfl

/-- An Apply trace contains no delete. -/
theorem countDel_apply {σ : Type} (c : Client σ)
    (m : ChildResource → Except Err (List (String × String))) (s : σ) (o : ChildResource) :
    countDeletes (Apply c m s o).2.1 = 0 := by
  rcases apply_trace_shape c m s o with h | h | ⟨i, pj, h⟩ <;> rw [h] <;> rfl

/-- An Apply trace contains at most one create or patch call. -/
theorem countCP_apply_le {σ : Type} (c : Client σ)
    (m : ChildResource → Except Err (List (String × String))) (s : σ) (o : ChildResource) :
    countCreatePatch (Apply c m s o).2.1 ≤ 1 := by
  rcases apply_trace_shape c m s o with h | h | ⟨i, pj, h⟩ <;> rw [h] <;> simp [countCreatePatch, StoreCall.isCreateOrPatch]

/-- A successful Apply issues exactly one create or patch call. -/
theorem countCP_apply_success {σ : Type} (c : Client σ)
    (m : ChildResource → Except Err (List (String × String))) (s : σ) (o : ChildResource)
    (h : (Apply c m s o).2.2 = none) :
    countCreatePatch (Apply c m s o).2.1 = 1 := by
  unfold Apply at h ⊢
  cases hg : c.getChild s o.identity with
  | mk s1 g =>
    rw [hg] at h
    cases g with
    | found ex =>
      cases hm : m o with
      | error e => rw [hm] at h; exact Option.noConfusion h
      | ok pj => rfl
    | notFound => rfl
    | err e => exact Option.noConfusion h

/-- The apply loop issues no status update. -/
theorem countSU_applyChildren {σ : Type} (c : Client σ)
    (m : ChildResource → Except Err (List (String × String))) (l : List ChildResource) :
    ∀ s : σ, countStatusUpdates (applyChildren c m s l).2.1 = 0 := by
  induction l with
  | nil => intro s; rfl
  | cons o rest ih =>
    intro s
    unfold applyChildren
    cases ha : Apply c m s o with
    | mk s1 te =>
      cases te with
      | mk t1 eo =>
        have ht1 : countStatusUpdates t1 = 0 := by
          have h := countSU_apply c m s o
          rw [ha] at h
          exact h
        cases eo with
        | some e => exact ht1
        | none => rw [countStatusUpdates_append, ht1, ih s1]

/-- The apply loop issues no delete. -/
theorem countDel_applyChildren {σ : Type} (c : Client σ)
    (m : ChildResource → Except Err (List (String × String))) (l : List ChildResource) :
    ∀ s : σ, countDeletes (applyChildren c m s l).2.1 = 0 := by
  induction l with
  | nil => intro s; rfl
  | cons o rest ih =>
    intro s
    unfold applyChildren
    cases ha : Apply c m s o with
    | mk s1 te =>
      cases te with
      | mk t1 eo =>
        have ht1 : countDeletes t1 = 0 := by
          have h := countDel_apply c m s o
          rw [ha] at h
          exact h
        cases eo with
        | some e => exact ht1
        | none => rw [countDeletes_append, ht1, ih s1]

/-- A fully successful apply loop issues exactly one create or patch call
per child. -/
theorem countCP_applyChildren_success {σ : Type} (c : Client σ)
    (m : ChildResource → Except Err (List (String × String))) (l : List ChildResource) :
    ∀ s : σ, (applyChildren c m s l).2.2 = none →
      countCreatePatch (applyChildren c m s l).2.1 = l.length := by
  induction l with
  | nil => intro s _; rfl
  | cons o rest ih =>
    intro s hok
    unfold applyChildren at hok ⊢
    cases ha : Apply c m s o with
    | mk s1 te =>
      cases te with
      | mk t1 eo =>
        rw [ha] at hok
        cases eo with
        | some e => exact Option.noConfusion hok
        | none =>
          have ht1 : countCreatePatch t1 = 1 := by
            have h := countCP_apply_success c m s o (by rw [ha])
            rw [ha] at h
            exact h
          have hrest : (applyChildren c m s1 rest).2.2 = none := hok
          rw [countCreatePatch_append, ht1, ih s1 hrest]
          simp [Nat.add_comm]

/-- Fail-fast decomposition of the apply loop: when a prefix applies
successfully and the next child fails, the loop output is the prefix
trace, the failing trace, the failing child with its error, and nothing
from the remaining children. -/
theorem applyChildren_split {σ : Type} (c : Client σ)
    (m : ChildResource → Except Err (List (String × String)))
    (f : ChildResource) (e : Err) (post : List ChildResource) (pre : List ChildResource) :
    ∀ (s s2 sf : σ) (tp tf : List StoreCall),
      applyChildren c m s pre = (s2, tp, none) →
      Apply c m s2 f = (sf, tf, some e) →
      applyChildren c m s (pre ++ f :: post) = (sf, tp ++ tf, some (f, e)) := by
  induction pre with
  | nil =>
    intro s s2 sf tp tf hpre hf
    unfold applyChildren at hpre
    injection hpre with h1 h23
    injection h23 with h2 h3
    subst h1
    subst h2
    rw [List.nil_append]
    unfold applyChildren
    rw [hf]
    rfl
  | cons o pre ih =>
    intro s s2 sf tp tf hpre hf
    rw [List.cons_append]
    unfold applyChildren at hpre ⊢
    cases ha : Apply c m s o with
    | mk s1 te =>
      cases te with
      | mk t1 eo =>
        rw [ha] at hpre
        cases eo with
        | some pe =>
          exfalso
          injection hpre with h1 h23
          injection h23 with h2 h3
          exact Option.noConfusion h3
        | none =>
          injection hpre with h1 h23
          injection h23 with h2 h3
          cases hr : applyChildren c m s1 pre with
          | mk s2b tr =>
            cases tr with
            | mk tp2 e2 =>
              rw [hr] at h1 h2 h3
              dsimp only at h1 h2 h3
              subst h1
              subst h3
              have hmain := ih s1 s2b sf tp2 tf hr hf
              change ((applyChildren c m s1 (pre ++ f :: post)).1,
                  t1 ++ (applyChildren c m s1 (pre ++ f :: post)).2.1,
                  (applyChildren c m s1 (pre ++ f :: post)).2.2) = (sf, tp ++ tf, some (f, e))
              rw [hmain, ← h2, List.append_assoc]

/-- A condition is always present after it is set. -/
theorem setCondition_mem (l : List Condition) (c : Condition) : c ∈ setCondition l c := by
  induction l with
  | nil => exact List.mem_singleton.mpr rfl
  | cons x xs ih =>
    unfold setCondition
    by_cases hx : (x.kind == c.kind) = true
    · rw [if_pos hx]; exact List.mem_cons_self c xs
    · rw [if_neg hx]; exact List.mem_cons_of_mem x ih

/-- Counting error conditions over a cons. -/
theorem countErrorConds_cons (x : Condition) (xs : List Condition) :
    countErrorConds (x :: xs) =
      (if (x.kind == CondKind.error) = true then 1 else 0) + countErrorConds xs := by
  by_cases hx : (x.kind == CondKind.error) = true
  · simp [countErrorConds, List.filter, hx, Nat.add_comm]
  · simp [countErrorConds, List.filter, hx]

/-- Setting an error condition on a status holding at most one error
condition leaves exactly one error condition. -/
theorem countErrorConds_setError (l : List Condition) (msg : String)
    (h : countErrorConds l ≤ 1) :
    countErrorConds (setCondition l ⟨.error, msg⟩) = 1 := by
  induction l with
  | nil => rfl
  | cons x xs ih =>
    unfold setCondition
    by_cases hx : (x.kind == CondKind.error) = true
    · rw [if_pos hx]
      rw [countErrorConds_cons] at h
      rw [if_pos hx] at h
      rw [countErrorConds_cons]
      have hxs : countErrorConds xs = 0 := by omega
      simp [hxs]
    · rw [if_neg hx]
      rw [countErrorConds_cons] at h
      rw [if_neg hx] at h
      rw [countErrorConds_cons, if_neg hx]
      rw [ih (by omega)]

/-- Outcome of a cycle whose templating step fails. -/
theorem reconcile_tpl_error {σ : Type} (r : TemplatingReconciler σ)
    (m : ChildResource → Except Err (List (String × String))) (s : σ) (req : Identity)
    (s1 : σ) (cr : ParentResource) (e : Err)
    (hget : r.kube.getParent s req = (s1, .found cr))
    (hdel : cr.deleted = false)
    (htpl : r.templatingEngine cr = .error e) :
    Reconcile r m s req =
      ⟨(r.kube.statusUpdate s1 (SetConditions cr (ReconcileError (.wrap errTemplatingOperation e)))).1,
        [.getParent req, .statusUpdate (SetConditions cr (ReconcileError (.wrap errTemplatingOperation e))).conditions],
        ⟨false, r.shortWait⟩,
        wrapOpt errUpdateResourceStatus
          (r.kube.statusUpdate s1 (SetConditions cr (ReconcileError (.wrap errTemplatingOperation e)))).2⟩ := by
  unfold Reconcile
  rw [hget]
  dsimp only
  simp only [hdel, Bool.false_eq_true, if_false]
  rw [htpl]

/-- Outcome of a cycle whose patcher chain fails. -/
theorem reconcile_patcher_error {σ : Type} (r : TemplatingReconciler σ)
    (m : ChildResource → Except Err (List (String × String))) (s : σ) (req : Identity)
    (s1 : σ) (cr : ParentResource) (cs0 : List ChildResource) (e : Err)
    (hget : r.kube.getParent s req = (s1, .found cr))
    (hdel : cr.deleted = false)
    (htpl : r.templatingEngine cr = .ok cs0)
    (hpat : r.childResourcePatcher cr cs0 = .error e) :
    Reconcile r m s req =
      ⟨(r.kube.statusUpdate s1 (SetConditions cr (ReconcileError (.wrap errChildResourcePatchers e)))).1,
        [.getParent req, .statusUpdate (SetConditions cr (ReconcileError (.wrap errChildResourcePatchers e))).conditions],
        ⟨false, r.shortWait⟩,
        wrapOpt errUpdateResourceStatus
          (r.kube.statusUpdate s1 (SetConditions cr (ReconcileError (.wrap errChildResourcePatchers e)))).2⟩ := by
  unfold Reconcile
  rw [hget]
  dsimp only
  simp only [hdel, Bool.false_eq_true, if_false]
  rw [htpl]
  dsimp only
  rw [hpat]

/-- Outcome of a cycle in which a child fails to apply. -/
theorem reconcile_apply_fail {σ : Type} (r : TemplatingReconciler σ)
    (m : ChildResource → Except Err (List (String × String))) (s : σ) (req : Identity)
    (s1 s2 : σ) (cr : ParentResource) (cs0 cs : List ChildResource)
    (t : List StoreCall) (f : ChildResource) (e : Err)
    (hget : r.kube.getParent s req = (s1, .found cr))
    (hdel : cr.deleted = false)
    (htpl : r.templatingEngine cr = .ok cs0)
    (hpat : r.childResourcePatcher cr cs0 = .ok cs)
    (hac : applyChildren r.kube m s1 cs = (s2, t, some (f, e))) :
    Reconcile r m s req =
      ⟨(r.kube.statusUpdate s2 (SetConditions cr (ReconcileError (.wrap (applyErrLabel f) e)))).1,
        .getParent req ::
          (t ++ [.statusUpdate (SetConditions cr (ReconcileError (.wrap (applyErrLabel f) e))).conditions]),
        ⟨false, r.shortWait⟩,
        wrapOpt errUpdateResourceStatus
          (r.kube.statusUpdate s2 (SetConditions cr (ReconcileError (.wrap (applyErrLabel f) e)))).2⟩ := by
  unfold Reconcile
  rw [hget]
  dsimp only
  simp only [hdel, Bool.false_eq_true, if_false]
  rw [htpl]
  dsimp only
  rw [hpat]
  dsimp only
  rw [hac]

/-- Outcome of a cycle in which every child applies. -/
theorem reconcile_success {σ : Type} (r : TemplatingReconciler σ)
    (m : ChildResource → Except Err (List (String × String))) (s : σ) (req : Identity)
    (s1 s2 : σ) (cr : ParentResource) (cs0 cs : List ChildResource) (t : List StoreCall)
    (hget : r.kube.getParent s req = (s1, .found cr))
    (hdel : cr.deleted = false)
    (htpl : r.templatingEngine cr = .ok cs0)
    (hpat : r.childResourcePatcher cr cs0 = .ok cs)
    (hac : applyChildren r.kube m s1 cs = (s2, t, none)) :
    Reconcile r m s req =
      ⟨(r.kube.statusUpdate s2 (SetConditions cr ReconcileSuccess)).1,
        .getParent req :: (t ++ [.statusUpdate (SetConditions cr ReconcileSuccess).conditions]),
        ⟨false, r.longWait⟩,
        wrapOpt errUpdateResourceStatus (r.kube.statusUpdate s2 (SetConditions cr ReconcileSuccess)).2⟩ := by
  unfold Reconcile
  rw [hget]
  dsimp only
  simp only [hdel, Bool.false_eq_true, if_false]
  rw [htpl]
  dsimp only
  rw [hpat]
  dsimp only
  rw [hac]

/-- Outcome of a cycle whose parent load reports not-found. -/
theorem reconcile_not_found {σ : Type} (r : TemplatingReconciler σ)
    (m : ChildResource → Except Err (List (String × String))) (s : σ) (req : Identity)
    (s1 : σ)
    (hget : r.kube.getParent s req = (s1, .notFound)) :
    Reconcile r m s req = ⟨s1, [.getParent req], ⟨false, 0⟩, none⟩ := by
  unfold Reconcile
  rw [hget]
  rfl

/-- Outcome of a cycle whose parent load fails with a transient error. -/
theorem reconcile_get_error {σ : Type} (r : TemplatingReconciler σ)
    (m : ChildResource → Except Err (List (String × String))) (s : σ) (req : Identity)
    (s1 : σ) (e : Err)
    (hget : r.kube.getParent s req = (s1, .err e)) :
    Reconcile r m s req = ⟨s1, [.getParent req], ⟨false, 0⟩, some (.wrap errGetResource e)⟩ := by
  unfold Reconcile
  rw [hget]

/-- Outcome of a cycle whose parent carries the deletion marker. -/
theorem reconcile_deleted {σ : Type} (r : TemplatingReconciler σ)
    (m : ChildResource → Except Err (List (String × String))) (s : σ) (req : Identity)
    (s1 : σ) (cr : ParentResource)
    (hget : r.kube.getParent s req = (s1, .found cr))
    (hdel : cr.deleted = true) :
    Reconcile r m s req = ⟨s1, [.getParent req], ⟨false, 0⟩, none⟩ := by
  unfold Reconcile
  rw [hget]
  dsimp only
  simp only [hdel, if_true]

theorem countStatusUpdates_cons (x : StoreCall) (l : List StoreCall) :
    countStatusUpdates (x :: l) =
      (if x.isStatusUpdate = true then 1 else 0) + countStatusUpdates l := by
  by_cases hx : x.isStatusUpdate = true
  · simp [countStatusUpdates, List.filter, hx, Nat.add_comm]
  · simp [countStatusUpdates, List.filter, hx]

theorem countDeletes_cons (x : StoreCall) (l : List StoreCall) :
    countDeletes (x :: l) = (if x.isDelete = true then 1 else 0) + countDeletes l := by
  by_cases hx : x.isDelete = true
  · simp [countDeletes, List.filter, hx, Nat.add_comm]
  · simp [countDeletes, List.filter, hx]

theorem countCreatePatch_cons (x : StoreCall) (l : List StoreCall) :
    countCreatePatch (x :: l) =
      (if x.isCreateOrPatch = true then 1 else 0) + countCreatePatch l := by
  by_cases hx : x.isCreateOrPatch = true
  · simp [countCreatePatch, List.filter, hx, Nat.add_comm]
  · simp [countCreatePatch, List.filter, hx]

/- Concrete reconcilers exercising chosen failure behaviours. -/

/-- A reconciler over the concrete list-backed store with a templating
engine producing no children and an identity patcher chain. -/
def rStore : TemplatingReconciler Store where
  kube := storeClient
  shortWait := 30
  longWait := 60
  templatingEngine := fun _ => .ok []
  childResourcePatcher := fun _ cs => .ok cs

/-- A reconciler whose store holds a live parent and fails every create
call, templating one child through an identity patcher chain. -/
def rCreateFail : TemplatingReconciler Unit where
  kube := constClient (.found parent0) .notFound (some (.base "boom")) none none
  shortWait := 30
  longWait := 60
  templatingEngine := fun _ => .ok [child0]
  childResourcePatcher := fun _ cs => .ok cs

/-- A reconciler whose store holds a parent carrying the deletion
marker. -/
def rDeleted : TemplatingReconciler Unit where
  kube := constClient (.found ⟨true, []⟩) .notFound none none none
  shortWait := 30
  longWait := 60
  templatingEngine := fun _ => .ok []
  childResourcePatcher := fun _ cs => .ok cs

/-- A reconciler whose templating engine fails. -/
def rTplFail : TemplatingReconciler Unit where
  kube := constClient (.found parent0) .notFound none none none
  shortWait := 30
  longWait := 60
  templatingEngine := fun _ => .error (.base "tfail")
  childResourcePatcher := fun _ cs => .ok cs

/-- A reconciler whose status writes fail. -/
def rStatusFail : TemplatingReconciler Unit where
  kube := constClient (.found parent0) .notFound none none (some (.base "sfail"))
  shortWait := 30
  longWait := 60
  templatingEngine := fun _ => .ok []
  childResourcePatcher := fun _ cs => .ok cs

/-- A marshalling function that always fails, standing for a child value
json.Marshal cannot serialize. -/
def badMarshal : ChildResource → Except Err (List (String × String)) :=
  fun _ => .error (.base "json marshal error")

/- Claim theorems. -/

/-- Claim C6: for every parent identity not found in the store, Reconcile
returns no error and no requeue directive. -/
theorem parent_not_found_silent {σ : Type} (r : TemplatingReconciler σ)
    (m : ChildResource → Except Err (List (String × String))) (s : σ) (req : Identity)
    (s1 : σ)
    (hget : r.kube.getParent s req = (s1, .notFound)) :
    (Reconcile r m s req).error = none ∧
    (Reconcile r m s req).result.requeue = false ∧
    (Reconcile r m s req).result.requeueAfter = 0 := by
  rw [reconcile_not_found r m s req s1 hget]
  exact ⟨rfl, rfl, rfl⟩

/-- Witness for claim C6 at the concrete list-backed store, which holds
no parent. -/
theorem parent_not_found_silent_witness :
    (Reconcile rStore jsonMarshal ([] : Store) req0).error = none ∧
    (Reconcile rStore jsonMarshal ([] : Store) req0).result.requeue = false ∧
    (Reconcile rStore jsonMarshal ([] : Store) req0).result.requeueAfter = 0 :=
  parent_not_found_silent rStore jsonMarshal [] req0 [] rfl

/-- Claim C7: for every parent carrying the deletion marker, Reconcile
returns no error and no requeue directive, and performs zero store writes
beyond the initial get of the parent. -/
theorem parent_deleted_silent {σ : Type} (r : TemplatingReconciler σ)
    (m : ChildResource → Except Err (List (String × String))) (s : σ) (req : Identity)
    (s1 : σ) (cr : ParentResource)
    (hget : r.kube.getParent s req = (s1, .found cr))
    (hdel : cr.deleted = true) :
    (Reconcile r m s req).error = none ∧
    (Reconcile r m s req).result.requeue = false ∧
    (Reconcile r m s req).result.requeueAfter = 0 ∧
    (Reconcile r m s req).trace = [.getParent req] ∧
    ((Reconcile r m s req).trace.filter StoreCall.isWrite).length = 0 := by
  rw [reconcile_deleted r m s req s1 cr hget hdel]
  exact ⟨rfl, rfl, rfl, rfl, rfl⟩

/-- Witness for claim C7 at a concrete store holding a deleted parent. -/
theorem parent_deleted_silent_witness :
    (Reconcile rDeleted jsonMarshal () req0).error = none ∧
    (Reconcile rDeleted jsonMarshal () req0).result.requeue = false ∧
    (Reconcile rDeleted jsonMarshal () req0).result.requeueAfter = 0 ∧
    (Reconcile rDeleted jsonMarshal () req0).trace = [.getParent req0] ∧
    ((Reconcile rDeleted jsonMarshal () req0).trace.filter StoreCall.isWrite).length = 0 :=
  parent_deleted_silent rDeleted jsonMarshal () req0 () ⟨true, []⟩ rfl rfl

/-- Claim C10: when serializing the desired child fails after a
successful fetch, Apply returns the serialization error unchanged, with
no wrapping label, and issues no patch call. -/
theorem marshal_error_returned_unchanged {σ : Type} (c : Client σ)
    (m : ChildResource → Except Err (List (String × String))) (s : σ) (o : ChildResource)
    (s1 : σ) (ex : ChildResource) (e : Err)
    (hget : c.getChild s o.identity = (s1, .found ex))
    (hm : m o = .error e) :
    Apply c m s o = (s1, [.getChild o.identity], some e) := by
  unfold Apply
  rw [hget]
  dsimp only
  rw [hm]

/-- Witness for claim C10 at a store holding the child and a marshalling
function that fails. -/
theorem marshal_error_returned_unchanged_witness :
    Apply (constClient .notFound (.found child0) none none none) badMarshal () child0 =
      ((), [.getChild child0.identity], some (.base "json marshal error")) :=
  marshal_error_returned_unchanged (constClient .notFound (.found child0) none none none)
    badMarshal () child0 () child0 (.base "json marshal error") rfl rfl

/-- Claim C9: neither Apply nor any branch of Reconcile ever issues a
delete call against the store. -/
theorem never_deletes {σ : Type} (c : Client σ) (r : TemplatingReconciler σ)
    (m : ChildResource → Except Err (List (String × String))) (s s0 : σ)
    (o : ChildResource) (req : Identity) :
    countDeletes (Apply c m s o).2.1 = 0 ∧
    countDeletes (Reconcile r m s0 req).trace = 0 := by
  refine ⟨countDel_apply c m s o, ?_⟩
  cases hg : r.kube.getParent s0 req with
  | mk s1 pg =>
    cases pg with
    | err e => rw [reconcile_get_error r m s0 req s1 e hg]; rfl
    | notFound => rw [reconcile_not_found r m s0 req s1 hg]; rfl
    | found cr =>
      cases hd : cr.deleted with
      | true => rw [reconcile_deleted r m s0 req s1 cr hg hd]; rfl
      | false =>
        cases ht : r.templatingEngine cr with
        | error e => rw [reconcile_tpl_error r m s0 req s1 cr e hg hd ht]; rfl
        | ok cs0 =>
          cases hp : r.childResourcePatcher cr cs0 with
          | error e => rw [reconcile_patcher_error r m s0 req s1 cr cs0 e hg hd ht hp]; rfl
          | ok cs =>
            cases hac : applyChildren r.kube m s1 cs with
            | mk s2 tr =>
              cases tr with
              | mk t res =>
                have htz : countDeletes t = 0 := by
                  have hh := countDel_applyChildren r.kube m cs s1
                  rw [hac] at hh
                  exact hh
                cases res with
                | some fe =>
                  cases fe with
                  | mk f e =>
                    rw [reconcile_apply_fail r m s0 req s1 s2 cr cs0 cs t f e hg hd ht hp hac]
                    rw [countDeletes_cons, countDeletes_append, htz]
                    rfl
                | none =>
                  rw [reconcile_success r m s0 req s1 s2 cr cs0 cs t hg hd ht hp hac]
                  rw [countDeletes_cons, countDeletes_append, htz]
                  rfl

/-- Counterexample to claim C3 as stated: a cycle whose parent carries
the deletion marker runs to completion with zero status writes, not
exactly one, even though the store get for the parent succeeded. -/
theorem status_write_zero_on_deleted_cex :
    countStatusUpdates (Reconcile rDeleted jsonMarshal () req0).trace = 0 ∧
    (Reconcile rDeleted jsonMarshal () req0).trace = [.getParent req0] :=
  ⟨rfl, rfl⟩

/-- Claim C3 as amended: the number of status writes in a cycle is
exactly one on every branch that passes the load and deletion guards, and
exactly zero on the branches that end at the guards (parent not found,
parent load error, parent deleted). -/
theorem status_write_once_past_guards {σ : Type} (r : TemplatingReconciler σ)
    (m : ChildResource → Except Err (List (String × String))) (s : σ) (req : Identity) :
    countStatusUpdates (Reconcile r m s req).trace =
      (match (r.kube.getParent s req).2 with
        | .found cr => if cr.deleted then 0 else 1
        | _ => 0) := by
  cases hg : r.kube.getParent s req with
  | mk s1 pg =>
    cases pg with
    | err e => rw [reconcile_get_error r m s req s1 e hg]; rfl
    | notFound => rw [reconcile_not_found r m s req s1 hg]; rfl
    | found cr =>
      cases hd : cr.deleted with
      | true =>
        rw [reconcile_deleted r m s req s1 cr hg hd]
        dsimp only
        rw [hd]
        rfl
      | false =>
        cases ht : r.templatingEngine cr with
        | error e =>
          rw [reconcile_tpl_error r m s req s1 cr e hg hd ht]
          dsimp only
          rw [hd]
          rfl
        | ok cs0 =>
          cases hp : r.childResourcePatcher cr cs0 with
          | error e =>
            rw [reconcile_patcher_error r m s req s1 cr cs0 e hg hd ht hp]
            dsimp only
            rw [hd]
            rfl
          | ok cs =>
            cases hac : applyChildren r.kube m s1 cs with
            | mk s2 tr =>
              cases tr with
              | mk t res =>
                have htz : countStatusUpdates t = 0 := by
                  have hh := countSU_applyChildren r.kube m cs s1
                  rw [hac] at hh
                  exact hh
                cases res with
                | some fe =>
                  cases fe with
                  | mk f e =>
                    rw [reconcile_apply_fail r m s req s1 s2 cr cs0 cs t f e hg hd ht hp hac]
                    rw [countStatusUpdates_cons, countStatusUpdates_append, htz]
                    dsimp only
                    rw [hd]
                    rfl
                | none =>
                  rw [reconcile_success r m s req s1 s2 cr cs0 cs t hg hd ht hp hac]
                  rw [countStatusUpdates_cons, countStatusUpdates_append, htz]
                  dsimp only
                  rw [hd]
                  rfl

/-- Mapping a function that fixes every member of a list is the identity
on that list. -/
theorem map_id_of_mem {α : Type} (l : List α) (f : α → α) (h : ∀ x ∈ l, f x = x) :
    l.map f = l := by
  induction l with
  | nil => rfl
  | cons x xs ih =>
    rw [List.map_cons, h x (List.mem_cons_self x xs),
      ih (fun y hy => h y (List.mem_cons_of_mem x hy))]

/-- In a field list with distinct keys, looking a member up by its own
key finds exactly that member. -/
theorem find?_key_self (b : List (String × String)) (h : (b.map Prod.fst).Nodup)
    (kv : String × String) (hkv : kv ∈ b) :
    b.find? (fun p => p.1 == kv.1) = some kv := by
  induction b with
  | nil => cases hkv
  | cons a t ih =>
    rw [List.map_cons, List.nodup_cons] at h
    rcases List.mem_cons.mp hkv with heq | hm
    · subst heq
      simp [List.find?_cons]
    · have hne : (a.1 == kv.1) = false := by
        apply beq_eq_false_iff_ne.mpr
        intro he
        exact h.1 (he ▸ List.mem_map_of_mem Prod.fst hm)
      simp only [List.find?_cons, hne]
      exact ih h.2 hm

/-- Merge-patching an object body with itself is a no-op when the keys
are distinct. -/
theorem mergeFields_self (b : List (String × String)) (h : (b.map Prod.fst).Nodup) :
    mergeFields b b = b := by
  unfold mergeFields
  have h1 : (b.map (fun kv =>
      match b.find? (fun p => p.1 == kv.1) with
      | some p => p
      | none => kv)) = b := by
    apply map_id_of_mem
    intro kv hkv
    rw [find?_key_self b h kv hkv]
  have h2 : (b.filter (fun p => b.all (fun kv => !(kv.1 == p.1)))) = [] := by
    apply List.filter_eq_nil_iff.mpr
    intro p hp
    intro hall
    have h3 := (List.all_eq_true.mp hall) p hp
    simp at h3
  rw [h1, h2, List.append_nil]

/-- Claim C8: Apply is idempotent. Against an initially empty concrete
store, the first Apply issues a get then a create, and a second Apply of
the same child issues a get then a merge patch whose effective diff is
empty, leaving the store unchanged, so repeated calls with unchanged
input converge to a no-op. -/
theorem apply_idempotent (o : ChildResource) (h : (o.body.map Prod.fst).Nodup) :
    Apply storeClient jsonMarshal ([] : Store) o =
      ([o], [.getChild o.identity, .create o], none) ∧
    Apply storeClient jsonMarshal [o] o =
      ([o], [.getChild o.identity, .patch o.identity o.body], none) ∧
    mergeFields o.body o.body = o.body := by
  refine ⟨rfl, ?_, mergeFields_self o.body h⟩
  unfold Apply
  have hg : storeClient.getChild [o] o.identity = ([o], .found o) := by
    simp [storeClient, storeGetChild, storeFind, List.find?]
  rw [hg]
  dsimp only [jsonMarshal]
  have hp : storeClient.patch [o] o.identity o.body = ([o], none) := by
    simp [storeClient, storePatch, storeFind, List.find?, mergeFields_self o.body h]
  rw [hp]

/-- Witness for claim C8 at a concrete child resource. -/
theorem apply_idempotent_witness :
    Apply storeClient jsonMarshal ([] : Store) child0 =
      ([child0], [.getChild child0.identity, .create child0], none) ∧
    Apply storeClient jsonMarshal [child0] child0 =
      ([child0], [.getChild child0.identity, .patch child0.identity child0.body], none) ∧
    mergeFields child0.body child0.body = child0.body :=
  apply_idempotent child0 (by decide)

/-- Claim C4: for every templating-engine failure and every patcher-chain
failure, the cycle writes exactly one error-kind condition to the parent
status, whose message starts with the phase label (templating operation
failed, or child resource patchers failed), writes status once with no
apply-step store call, and requests a requeue after the configured short
wait. Stated under the spec invariant that the parent held at most one
error condition before the cycle. -/
theorem phase_failure_single_error_condition {σ : Type} (r : TemplatingReconciler σ)
    (s : σ) (req : Identity) (s1 : σ) (cr : ParentResource) (e : Err)
    (hget : r.kube.getParent s req = (s1, .found cr))
    (hdel : cr.deleted = false)
    (hinv : countErrorConds cr.conditions ≤ 1) :
    (r.templatingEngine cr = .error e →
      (Reconcile r jsonMarshal s req).trace =
        [.getParent req,
          .statusUpdate (setCondition cr.conditions
            ⟨.error, errTemplatingOperation ++ ": " ++ e.render⟩)] ∧
      countErrorConds (setCondition cr.conditions
        ⟨.error, errTemplatingOperation ++ ": " ++ e.render⟩) = 1 ∧
      (Reconcile r jsonMarshal s req).result = ⟨false, r.shortWait⟩) ∧
    (∀ cs0, r.templatingEngine cr = .ok cs0 →
      r.childResourcePatcher cr cs0 = .error e →
      (Reconcile r jsonMarshal s req).trace =
        [.getParent req,
          .statusUpdate (setCondition cr.conditions
            ⟨.error, errChildResourcePatchers ++ ": " ++ e.render⟩)] ∧
      countErrorConds (setCondition cr.conditions
        ⟨.error, errChildResourcePatchers ++ ": " ++ e.render⟩) = 1 ∧
      (Reconcile r jsonMarshal s req).result = ⟨false, r.shortWait⟩) := by
  constructor
  · intro htpl
    rw [reconcile_tpl_error r jsonMarshal s req s1 cr e hget hdel htpl]
    exact ⟨rfl, countErrorConds_setError cr.conditions _ hinv, rfl⟩
  · intro cs0 htpl hpat
    rw [reconcile_patcher_error r jsonMarshal s req s1 cr cs0 e hget hdel htpl hpat]
    exact ⟨rfl, countErrorConds_setError cr.conditions _ hinv, rfl⟩

/-- Witness for claim C4 at a reconciler whose templating engine fails. -/
theorem phase_failure_single_error_condition_witness :
    (Reconcile rTplFail jsonMarshal () req0).trace =
      [.getParent req0,
        .statusUpdate (setCondition parent0.conditions
          ⟨.error, errTemplatingOperation ++ ": " ++ (Err.base "tfail").render⟩)] ∧
    countErrorConds (setCondition parent0.conditions
      ⟨.error, errTemplatingOperation ++ ": " ++ (Err.base "tfail").render⟩) = 1 ∧
    (Reconcile rTplFail jsonMarshal () req0).result = ⟨false, 30⟩ :=
  (phase_failure_single_error_condition rTplFail () req0 () parent0 (.base "tfail")
    rfl rfl (by decide)).1 rfl

/-- Claim C5: on every branch of Reconcile that writes the parent status
(every branch past the load and deletion guards), the status write is the
last store call, a failing status write becomes the returned error of the
cycle wrapped with the status-update label, and a successful status write
makes the cycle return no error even on failure branches. -/
theorem status_write_error_authoritative {σ : Type} (r : TemplatingReconciler σ)
    (m : ChildResource → Except Err (List (String × String))) (s : σ) (req : Identity)
    (s1 : σ) (cr : ParentResource)
    (hget : r.kube.getParent s req = (s1, .found cr))
    (hdel : cr.deleted = false) :
    ∃ (s2 : σ) (cr1 : ParentResource),
      (Reconcile r m s req).trace.getLast? = some (.statusUpdate cr1.conditions) ∧
      (Reconcile r m s req).error =
        wrapOpt errUpdateResourceStatus (r.kube.statusUpdate s2 cr1).2 ∧
      ((r.kube.statusUpdate s2 cr1).2 = none → (Reconcile r m s req).error = none) ∧
      (∀ ue, (r.kube.statusUpdate s2 cr1).2 = some ue →
        (Reconcile r m s req).error = some (.wrap errUpdateResourceStatus ue)) := by
  cases ht : r.templatingEngine cr with
  | error e =>
    rw [reconcile_tpl_error r m s req s1 cr e hget hdel ht]
    refine ⟨s1, SetConditions cr (ReconcileError (.wrap errTemplatingOperation e)), rfl, rfl, ?_, ?_⟩
    · intro h; rw [h]; rfl
    · intro ue hue; rw [hue]; rfl
  | ok cs0 =>
    cases hp : r.childResourcePatcher cr cs0 with
    | error e =>
      rw [reconcile_patcher_error r m s req s1 cr cs0 e hget hdel ht hp]
      refine ⟨s1, SetConditions cr (ReconcileError (.wrap errChildResourcePatchers e)), rfl, rfl, ?_, ?_⟩
      · intro h; rw [h]; rfl
      · intro ue hue; rw [hue]; rfl
    | ok cs =>
      cases hac : applyChildren r.kube m s1 cs with
      | mk s2 tr =>
        cases tr with
        | mk t res =>
          cases res with
          | some fe =>
            cases fe with
            | mk f e =>
              rw [reconcile_apply_fail r m s req s1 s2 cr cs0 cs t f e hget hdel ht hp hac]
              refine ⟨s2, SetConditions cr (ReconcileError (.wrap (applyErrLabel f) e)), ?_, rfl, ?_, ?_⟩
              · rw [← List.cons_append, List.getLast?_concat]
              · intro h; rw [h]; rfl
              · intro ue hue; rw [hue]; rfl
          | none =>
            rw [reconcile_success r m s req s1 s2 cr cs0 cs t hget hdel ht hp hac]
            refine ⟨s2, SetConditions cr ReconcileSuccess, ?_, rfl, ?_, ?_⟩
            · rw [← List.cons_append, List.getLast?_concat]
            · intro h; rw [h]; rfl
            · intro ue hue; rw [hue]; rfl

/-- Witness for claim C5 at a reconciler whose status writes fail. -/
theorem status_write_error_authoritative_witness :
    ∃ (s2 : Unit) (cr1 : ParentResource),
      (Reconcile rStatusFail jsonMarshal () req0).trace.getLast? =
        some (.statusUpdate cr1.conditions) ∧
      (Reconcile rStatusFail jsonMarshal () req0).error =
        wrapOpt errUpdateResourceStatus (rStatusFail.kube.statusUpdate s2 cr1).2 ∧
      ((rStatusFail.kube.statusUpdate s2 cr1).2 = none →
        (Reconcile rStatusFail jsonMarshal () req0).error = none) ∧
      (∀ ue, (rStatusFail.kube.statusUpdate s2 cr1).2 = some ue →
        (Reconcile rStatusFail jsonMarshal () req0).error =
          some (.wrap errUpdateResourceStatus ue)) :=
  status_write_error_authoritative rStatusFail jsonMarshal () req0 () parent0 rfl rfl

/-- Counterexample to claim C1 as stated: against a store that holds the
child and fails the merge patch with a bare error, Apply returns that
error as is, carrying no distinguishing wrap label, so patch errors are
not returned wrapped. -/
theorem apply_patch_error_unwrapped_cex :
    (Apply (constClient .notFound (.found child0) none (some (.base "boom")) none)
        jsonMarshal () child0).2.2 = some (.base "boom") ∧
    Err.isWrapped (.base "boom") = false :=
  ⟨rfl, rfl⟩

/-- Claim C1 as amended: Apply first fetches an existing object with the
identity of the child; on not-found it creates the object as given and
returns the create outcome wrapped with the create label; on any other
fetch failure it returns the error wrapped as a get error; on success it
serializes the desired object and issues a merge patch against the
fetched object, returning the patch outcome unwrapped. -/
theorem apply_upsert_protocol {σ : Type} (c : Client σ) (s : σ) (o : ChildResource)
    (s1 : σ) (g : GetResult)
    (hget : c.getChild s o.identity = (s1, g)) :
    ((Apply c jsonMarshal s o).2.1.head? = some (.getChild o.identity)) ∧
    (g = .notFound →
      Apply c jsonMarshal s o =
        ((c.create s1 o).1, [.getChild o.identity, .create o],
          wrapOpt errCreateChildResource (c.create s1 o).2)) ∧
    (∀ e, g = .err e →
      Apply c jsonMarshal s o =
        (s1, [.getChild o.identity], some (.wrap errGetChildResource e))) ∧
    (∀ ex, g = .found ex →
      Apply c jsonMarshal s o =
        ((c.patch s1 ex.identity o.body).1,
          [.getChild o.identity, .patch ex.identity o.body],
          (c.patch s1 ex.identity o.body).2)) := by
  refine ⟨?_, ?_, ?_, ?_⟩
  · unfold Apply
    rw [hget]
    cases g with
    | found ex => rfl
    | notFound => rfl
    | err e => rfl
  · intro hgn
    subst hgn
    unfold Apply
    rw [hget]
  · intro e hge
    subst hge
    unfold Apply
    rw [hget]
  · intro ex hgf
    subst hgf
    unfold Apply
    rw [hget]
    rfl

/-- Witness for claim C1 as amended, at the concrete empty store. -/
theorem apply_upsert_protocol_witness :
    (Apply storeClient jsonMarshal ([] : Store) child0).2.1.head? =
      some (.getChild child0.identity) :=
  (apply_upsert_protocol storeClient [] child0 [] .notFound rfl).1

/-- Counterexample to claim C2 as stated: with zero children applying
successfully before a first child whose create call fails, the failed
create is still a create call observed on the store, so the trace holds
one create or patch call where the claim requires exactly zero. -/
theorem reconcile_failing_create_counted_cex :
    (Apply rCreateFail.kube jsonMarshal () child0).2.2 =
      some (.wrap errCreateChildResource (.base "boom")) ∧
    countCreatePatch (Reconcile rCreateFail jsonMarshal () req0).trace = 1 :=
  ⟨rfl, rfl⟩

/-- Claim C2 as amended: when the first children of the patched list
apply successfully and the next child fails to apply, the cycle stops at
the failing child: the successful prefix contributes exactly one create
or patch call per child, the failing child contributes at most one more
create or patch call, no store call is made for any later child (the
trace is exactly the prefix calls, the failing calls and the final status
write), an error condition naming the failing child by name, namespace
and kind is set in the written status, and the requeue is the configured
short wait. -/
theorem reconcile_fail_fast {σ : Type} (r : TemplatingReconciler σ)
    (s : σ) (req : Identity) (s1 s2 sf : σ) (cr : ParentResource)
    (cs0 pre post : List ChildResource) (f : ChildResource)
    (tp tf : List StoreCall) (e : Err)
    (hget : r.kube.getParent s req = (s1, .found cr))
    (hdel : cr.deleted = false)
    (htpl : r.templatingEngine cr = .ok cs0)
    (hpat : r.childResourcePatcher cr cs0 = .ok (pre ++ f :: post))
    (hpre : applyChildren r.kube jsonMarshal s1 pre = (s2, tp, none))
    (hf : Apply r.kube jsonMarshal s2 f = (sf, tf, some e)) :
    countCreatePatch tp = pre.length ∧
    countCreatePatch tf ≤ 1 ∧
    (Reconcile r jsonMarshal s req).trace =
      .getParent req ::
        (tp ++ tf ++
          [.statusUpdate (setCondition cr.conditions
            ⟨.error, applyErrLabel f ++ ": " ++ e.render⟩)]) ∧
    (Condition.mk .error (applyErrLabel f ++ ": " ++ e.render)) ∈
      setCondition cr.conditions ⟨.error, applyErrLabel f ++ ": " ++ e.render⟩ ∧
    (Reconcile r jsonMarshal s req).result = ⟨false, r.shortWait⟩ := by
  have hac := applyChildren_split r.kube jsonMarshal f e post pre s1 s2 sf tp tf hpre hf
  have htp : countCreatePatch tp = pre.length := by
    have hh := countCP_applyChildren_success r.kube jsonMarshal pre s1 (by rw [hpre])
    rw [hpre] at hh
    exact hh
  have htf : countCreatePatch tf ≤ 1 := by
    have hh := countCP_apply_le r.kube jsonMarshal s2 f
    rw [hf] at hh
    exact hh
  rw [reconcile_apply_fail r jsonMarshal s req s1 sf cr cs0 (pre ++ f :: post)
    (tp ++ tf) f e hget hdel htpl hpat hac]
  refine ⟨htp, htf, ?_, setCondition_mem cr.conditions _, rfl⟩
  rfl

/-- Witness for claim C2 as amended: an empty successful prefix followed
by a child whose create call fails. -/
theorem reconcile_fail_fast_witness :
    countCreatePatch ([] : List StoreCall) = ([] : List ChildResource).length ∧
    countCreatePatch [StoreCall.getChild child0.identity, StoreCall.create child0] ≤ 1 ∧
    (Reconcile rCreateFail jsonMarshal () req0).trace =
      .getParent req0 ::
        (([] : List StoreCall) ++ [StoreCall.getChild child0.identity, StoreCall.create child0] ++
          [.statusUpdate (setCondition parent0.conditions
            ⟨.error, applyErrLabel child0 ++ ": " ++
              (Err.wrap errCreateChildResource (.base "boom")).render⟩)]) ∧
    (Condition.mk .error (applyErrLabel child0 ++ ": " ++
        (Err.wrap errCreateChildResource (.base "boom")).render)) ∈
      setCondition parent0.conditions
        ⟨.error, applyErrLabel child0 ++ ": " ++
          (Err.wrap errCreateChildResource (.base "boom")).render⟩ ∧
    (Reconcile rCreateFail jsonMarshal () req0).result = ⟨false, 30⟩ :=
  reconcile_fail_fast rCreateFail () req0 () () () parent0 [child0] [] [] child0
    [] [StoreCall.getChild child0.identity, StoreCall.create child0]
    (.wrap errCreateChildResource (.base "boom")) rfl rfl rfl rfl rfl rfl

end Templating
